import Mathlib

set_option linter.unusedVariables false

/-! Shallow embedding of the SELFE binary dataset reader
(src/test_bed/pyselfe_kdtree.py).  Python floats are modelled as rationals,
Python ints as integers, and numpy arrays as lists, or as the inductive
`Arr` below where the rank of an array varies dynamically. -/

/-- Python-style list indexing: a negative index wraps once from the end;
an index that is still out of range is an IndexError, modelled as `none`. -/
def pyGet {α : Type} (l : List α) (i : ℤ) : Option α :=
  let j := if i < 0 then i + l.length else i
  if j < 0 then none else l.get? j.toNat

/-- Sequencing of a fallible lookup over a list, as numpy fancy
indexing does: the whole operation fails when any element fails. -/
def mapO {α β : Type} (g : α → Option β) : List α → Option (List β)
  | [] => some []
  | a :: l => do
      let b ← g a
      let bs ← mapO g l
      pure (b :: bs)

/-- Run-time failures of the Python code: the three sys.exit calls in the
source, and the numpy exceptions that the relevant operations can raise. -/
inductive PyErr where
  | badShape   -- sys.exit for an xy array of the wrong shape
  | noParent   -- sys.exit when no parent element is found
  | negArea    -- sys.exit for a non-positive element area
  | indexErr   -- numpy IndexError (bad index / too many indices)
  | valueErr   -- numpy ValueError (column_stack shape problems)
  | axisErr    -- numpy AxisError (mean over a missing axis)
deriving DecidableEq, Repr

/-- A numpy ndarray of floats whose rank is only known at run time,
modelled as a nested tree: `leaf` is a scalar, `node` one axis. -/
inductive Arr where
  | leaf (q : ℚ)
  | node (l : List Arr)

mutual

/-- Boolean structural equality of ndarrays. -/
def arrBeq : Arr → Arr → Bool
  | .leaf a, .leaf b => a == b
  | .node l, .node m => arrBeqList l m
  | _, _ => false

def arrBeqList : List Arr → List Arr → Bool
  | [], [] => true
  | a :: as, b :: bs => arrBeq a b && arrBeqList as bs
  | _, _ => false

end

mutual

theorem arrBeq_iff : ∀ a b : Arr, arrBeq a b = true ↔ a = b
  | .leaf a, .leaf b => by simp [arrBeq]
  | .leaf a, .node m => by simp [arrBeq]
  | .node l, .leaf b => by simp [arrBeq]
  | .node l, .node m => by
      rw [arrBeq]
      simp only [Arr.node.injEq]
      exact arrBeqList_iff l m

theorem arrBeqList_iff : ∀ l m : List Arr, arrBeqList l m = true ↔ l = m
  | [], [] => by simp [arrBeqList]
  | [], _ :: _ => by simp [arrBeqList]
  | _ :: _, [] => by simp [arrBeqList]
  | a :: as, b :: bs => by
      rw [arrBeqList]
      simp only [Bool.and_eq_true, List.cons.injEq]
      exact and_congr (arrBeq_iff a b) (arrBeqList_iff as bs)

end

instance : DecidableEq Arr := fun a b => decidable_of_iff _ (arrBeq_iff a b)

/-- Number of axes of an array (taken from its first component, as all
arrays built by the embedded code are rectangular). -/
def Arr.ndim : Arr → Nat
  | .leaf _ => 0
  | .node [] => 1
  | .node (a :: _) => 1 + a.ndim

mutual

/-- Indexing one fixed axis of an ndarray with an integer, as in the numpy
expressions a[:, i, :] (axis 1) or a[:, :, :, i] (axis 3): the indexed axis
is dropped.  Fails when the index or the axis is out of range. -/
def getAxis : Nat → ℤ → Arr → Option Arr
  | _, _, .leaf _ => none
  | 0, i, .node l => pyGet l i
  | k+1, i, .node l => (getAxisList k i l).map .node

def getAxisList : Nat → ℤ → List Arr → Option (List Arr)
  | _, _, [] => some []
  | k, i, a :: as => do
      let b ← getAxis k i a
      let bs ← getAxisList k i as
      pure (b :: bs)

end

mutual

/-- Pointwise sum of two ndarrays of identical shape. -/
def addArr : Arr → Arr → Option Arr
  | .leaf a, .leaf b => some (.leaf (a + b))
  | .node l, .node m => (addArrList l m).map .node
  | _, _ => none

def addArrList : List Arr → List Arr → Option (List Arr)
  | [], [] => some []
  | a :: as, b :: bs => do
      let c ← addArr a b
      let cs ← addArrList as bs
      pure (c :: cs)
  | _, _ => none

end

mutual

/-- Multiplication of every entry of an ndarray by a scalar. -/
def scaleArr : ℚ → Arr → Arr
  | c, .leaf a => .leaf (c * a)
  | c, .node l => .node (scaleArrList c l)

def scaleArrList : ℚ → List Arr → List Arr
  | _, [] => []
  | c, a :: as => scaleArr c a :: scaleArrList c as

end

/-- Mean of a list of same-shaped ndarrays; empty input fails. -/
def meanList (l : List Arr) : Option Arr :=
  match l with
  | [] => none
  | a :: as => do
      let s ← List.foldlM addArr a as
      pure (scaleArr (1 / ((as.length + 1 : ℕ) : ℚ)) s)

mutual

/-- numpy mean(axis=k): fails with an AxisError, modelled as `none`, when
the array has no axis `k` (in particular mean(axis=1) of a 1-D array). -/
def meanAxis : Nat → Arr → Option Arr
  | _, .leaf _ => none
  | 0, .node l => meanList l
  | k+1, .node l => (meanAxisList k l).map .node

def meanAxisList : Nat → List Arr → Option (List Arr)
  | _, [] => some []
  | k, a :: as => do
      let b ← meanAxis k a
      let bs ← meanAxisList k as
      pure (b :: bs)

end

/-- The list of slices along axis 0 of an ndarray. -/
def childrenOf : Arr → Option (List Arr)
  | .leaf _ => none
  | .node l => some l

/-- Stack a list of rank-r arrays into a rank-(r+1) array along axis 1,
as done by the assignments tmpdata[:, i, :, :] = ... in the source. -/
def stackAxis1 (ws : List Arr) : Option Arr := do
  let lls ← mapO childrenOf ws
  pure (.node ((List.transpose lls).map .node))

/-- View a rank-0 or rank-1 array as one row of scalars. -/
def asRow : Arr → Option (List ℚ)
  | .leaf q => some [q]
  | .node l => mapO (fun a => match a with | .leaf q => some q | _ => none) l

/-- np.column_stack((t, data)) with t a 1-D float array: prepends t as a
first column.  Fails (ValueError) when the lengths disagree. -/
def colStackT (t : List ℚ) (a : Arr) : Option (List (List ℚ)) := do
  let rows ← childrenOf a
  let qrows ← mapO asRow rows
  if qrows.length = t.length then
    pure ((t.zip qrows).map (fun p => p.1 :: p.2))
  else none

/-- np.column_stack((t, eta)) for two equal-length 1-D arrays. -/
def colStackQ (t : List ℚ) (e : List ℚ) : List (List ℚ) :=
  (t.zip e).map (fun p => [p.1, p.2])

/-- Split a list into `n` consecutive rows of width `w` (the shape part of
a numpy reshape). -/
def splitRows {α : Type} : Nat → Nat → List α → List (List α)
  | 0, _, _ => []
  | n+1, w, l => l.take w :: splitRows n w (l.drop w)

/-- numpy reshape of a flat vector to shape (n1, n2, n3): defined exactly
when the total sizes agree, an exception (modelled as `none`) otherwise. -/
def reshape3 (n1 n2 n3 : Nat) (dat : List ℚ) : Option (List (List (List ℚ))) :=
  if dat.length = n1 * (n2 * n3) then
    some ((splitRows n1 (n2 * n3) dat).map (splitRows n2 n3))
  else none

/-- Embed a 1-D float list as an `Arr`. -/
def toArr1 (l : List ℚ) : Arr := .node (l.map .leaf)

/-- Embed a 2-D float list as an `Arr`. -/
def toArr2 (l : List (List ℚ)) : Arr := .node (l.map toArr1)

/-- Embed a 3-D float list as an `Arr`. -/
def toArr3 (l : List (List (List ℚ))) : Arr := .node (l.map toArr2)

/-! ## The dataset state

The fields of the `Dataset` object that the embedded operations read:
header scalars, the horizontal grid, and the element connectivity
(`elem` rows keep the three 1-based node numbers of column slice 1:4). -/

structure DS where
  np : Nat
  nsteps : Nat
  nlevels : Nat
  flag_sv : Nat
  flag_dm : Nat
  bot_idx : List ℤ
  x : List ℚ
  y : List ℚ
  dp : List ℚ
  elem : List (ℤ × ℤ × ℤ)

/-- Signed area of a triangle (the helper `signa` nested inside
find_parent_element). -/
def signa (x1 x2 x3 y1 y2 y3 : ℚ) : ℚ :=
  ((x1 - x3) * (y2 - y3) - (x2 - x3) * (y1 - y3)) / 2

/-- Node x coordinate by 0-based index.  Lookup is total with default 0;
the mesh invariant of the file format keeps all element node numbers in
range, and no theorem below depends on the value at an invalid index. -/
def coordX (ds : DS) (n : ℤ) : ℚ := (pyGet ds.x n).getD 0

/-- Node y coordinate by 0-based index (see `coordX`). -/
def coordY (ds : DS) (n : ℤ) : ℚ := (pyGet ds.y n).getD 0

/-- The per-element quantities of the j-loop of find_parent_element for a
query point (x00, y00): the three signed sub-triangle areas out[0..2]
(edge j against the query point) and the full signed area ar, computed
with the shoelace formula on nodes (n1, n2, n0). -/
def elemOuts (ds : DS) (e : ℤ × ℤ × ℤ) (x00 y00 : ℚ) : ℚ × ℚ × ℚ × ℚ :=
  let n0 := e.1 - 1
  let n1 := e.2.1 - 1
  let n2 := e.2.2 - 1
  let out0 := signa (coordX ds n1) (coordX ds n2) x00 (coordY ds n1) (coordY ds n2) y00
  let out1 := signa (coordX ds n2) (coordX ds n0) x00 (coordY ds n2) (coordY ds n0) y00
  let out2 := signa (coordX ds n0) (coordX ds n1) x00 (coordY ds n0) (coordY ds n1) y00
  let ar := signa (coordX ds n1) (coordX ds n2) (coordX ds n0)
                  (coordY ds n1) (coordY ds n2) (coordY ds n0)
  (out0, out1, out2, ar)

/-- The full-triangle signed area ar of an element (independent of the
query point). -/
def arOf (ds : DS) (e : ℤ × ℤ × ℤ) : ℚ := (elemOuts ds e 0 0).2.2.2

/-- The relative-area quantity ae = abs(aa - ar)/ar of the containment
test, where aa is the sum of the absolute sub-triangle areas. -/
def aeOf (out0 out1 out2 ar : ℚ) : ℚ := |(|out0| + |out1| + |out2|) - ar| / ar

/-- `aeOf` at a concrete element and query point. -/
def aeAt (ds : DS) (e : ℤ × ℤ × ℤ) (x00 y00 : ℚ) : ℚ :=
  let q := elemOuts ds e x00 y00
  aeOf q.1 q.2.1 q.2.2.1 q.2.2.2

/-- The containment tolerance 1.e-5 of find_parent_element. -/
def tolAE : ℚ := 1 / 100000

/-- max(0., min(1., v)) as used on arco[1] and arco[2]. -/
def clamp01 (q : ℚ) : ℚ := max 0 (min 1 q)

/-- The barycentric-weight computation of find_parent_element once an
element is accepted: raw weights out/ar, then arco[1] and arco[2] are
clamped to [0,1] (arco[0] is left unclamped), and the final weights are
renormalised in one of two branches depending on arco[0] + arco[1] > 1. -/
def arcoOf (out0 out1 out2 ar : ℚ) : ℚ × ℚ × ℚ :=
  let a0 := out0 / ar
  let a1 := clamp01 (out1 / ar)
  let a2 := clamp01 (out2 / ar)
  if 1 < a0 + a1 then (a0, 1 - a0, 0) else (a0, a1, 1 - a0 - a1)

/-- The element scan of find_parent_element, carrying the 0-based element
counter: for each element compute out[] and ar, exit fatally when
ar ≤ 0, accept the first element whose relative-area test passes, and
fall through to the no-parent exit when the list is exhausted. -/
def fpeGo (ds : DS) (x00 y00 : ℚ) :
    Nat → List (ℤ × ℤ × ℤ) → Except PyErr (Nat × (ℚ × ℚ × ℚ) × (ℤ × ℤ × ℤ))
  | _, [] => .error .noParent
  | i, e :: es =>
    let q := elemOuts ds e x00 y00
    if q.2.2.2 ≤ 0 then .error .negArea
    else if aeOf q.1 q.2.1 q.2.2.1 q.2.2.2 ≤ tolAE then
      .ok (i, arcoOf q.1 q.2.1 q.2.2.1 q.2.2.2, e)
    else fpeGo ds x00 y00 (i+1) es

/-- find_parent_element: returns the parent element index, interpolation
weights arco and the element node numbers, or one of the two sys.exit
failures. -/
def find_parent_element (ds : DS) (x00 y00 : ℚ) :
    Except PyErr (Nat × (ℚ × ℚ × ℚ) × (ℤ × ℤ × ℤ)) :=
  fpeGo ds x00 y00 0 ds.elem

/-! ## compute_step_size -/

/-- The in-place clamp bIdx[bIdx < 1] = 1 of compute_step_size. -/
def clampBot (l : List ℤ) : List ℤ := l.map (fun b => if b < 1 then 1 else b)

/-- grid_size as computed by compute_step_size: for a 3-D dataset the sum
over nodes of (nlevels - bIdx + 1) after clamping the bottom indices up
to 1, for a 2-D dataset the node count.  (For any other flag_dm the
Python object would simply lack the attribute; 0 stands in for that
unused case.) -/
def grid_size (ds : DS) : ℤ :=
  if ds.flag_dm = 3 then
    ((clampBot ds.bot_idx).map (fun b => (ds.nlevels : ℤ) - b + 1)).sum
  else if ds.flag_dm = 2 then (ds.np : ℤ)
  else 0

/-- step_size: the byte size of one timestep record. -/
def step_size (ds : DS) : ℤ :=
  2 * 4 + (ds.np : ℤ) * 4 + grid_size ds * 4 * (ds.flag_sv : ℤ)

/-- The number of floats the data-block fread of one record asks for:
flag_sv * grid_size. -/
def readCount (ds : DS) : Nat := ((ds.flag_sv : ℤ) * grid_size ds).toNat

/-! ## read_time_series -/

/-- One timestep record of a data file, as delivered by the four freads:
a time float, an iteration int, np elevation floats, and the data block. -/
structure Record where
  t : ℚ
  it : ℤ
  eta : List ℚ
  dat : List ℚ
deriving DecidableEq

/-- The level selector as it reaches the slicing step: either an index
array (keeping the level axis) or a plain Python int (dropping it). -/
inductive LevSel where
  | arr (l : List ℤ)
  | scalar (i : ℤ)
deriving DecidableEq

/-- The nlevs variable of read_time_series: 1 for a 2-D dataset, nlevels
otherwise. -/
def effNlevs (ds : DS) : Nat := if ds.flag_dm = 2 then 1 else ds.nlevels

/-- The effective level selector of read_time_series: the default of all
levels when the caller passed none, but forced to the one-element array
[0] for a 2-D dataset regardless of the argument. -/
def effLevels (ds : DS) (levelsArg : Option LevSel) : LevSel :=
  if ds.flag_dm = 2 then .arr [0]
  else levelsArg.getD (.arr ((List.range ds.nlevels).map (fun k => (k : ℤ))))

/-- io.fread of exactly n scalars from a stream: fails when fewer are
available (a truncated record). -/
def freadN {α : Type} (n : Nat) (l : List α) : Option (List α) :=
  if n ≤ l.length then some (l.take n) else none

/-- The data-block part of one record read: fread flag_sv*grid_size
floats, reshape to (np, nlevs, flag_sv), slice by the node indices, then
by the level selector (an integer level selector drops the level axis).
Any failure is the exception that the per-file handler swallows. -/
def processRecord (ds : DS) (nodes : List ℤ) (nlevs : Nat) (lev : LevSel)
    (r : Record) : Option Arr := do
  let raw ← freadN (readCount ds) r.dat
  let cube ← reshape3 ds.np nlevs ds.flag_sv raw
  let rows ← mapO (pyGet cube) nodes
  match lev with
  | .arr ls => do
      let sl ← mapO (fun row => mapO (pyGet row) ls) rows
      pure (toArr3 sl)
  | .scalar i => do
      let sl ← mapO (fun row => pyGet row i) rows
      pure (toArr2 sl)

/-- The running output of the file loop: the four accumulator lists of
read_time_series plus, as the observability artifact of this model, the
list of file indices that were actually opened. -/
structure LoopOut where
  t : List ℚ
  titer : List ℤ
  eta : List (List ℚ)
  data : List Arr
  log : List Nat
deriving DecidableEq

/-- The empty accumulator. -/
def emptyLoop : LoopOut := ⟨[], [], [], [], []⟩

/-- Concatenation of accumulators (the appends of the Python loop). -/
def appendLoop (a b : LoopOut) : LoopOut :=
  ⟨a.t ++ b.t, a.titer ++ b.titer, a.eta ++ b.eta, a.data ++ b.data, a.log ++ b.log⟩

/-- The inner record loop over one file: for each of nsteps records,
append time, iteration and elevation, then process the data block; a
failing data block ends the file with those partial appends kept (this
is exactly what the try/except around the loop preserves), and a record
missing from the stream ends the file with nothing further appended
(the fread itself raises). -/
def procRecs (ds : DS) (nodes : List ℤ) (nlevs : Nat) (lev : LevSel) :
    Nat → List Record → LoopOut
  | 0, _ => emptyLoop
  | _+1, [] => emptyLoop
  | n+1, r :: rs =>
    match processRecord ds nodes nlevs lev r with
    | some d =>
      let rest := procRecs ds nodes nlevs lev n rs
      ⟨r.t :: rest.t, r.it :: rest.titer, r.eta :: rest.eta, d :: rest.data, rest.log⟩
    | none => ⟨[r.t], [r.it], [r.eta], [], []⟩

/-- The file loop of read_time_series over indices sfile, sfile+1, ...:
a missing file contributes nothing (the open fails and the bare except
moves on), a present file contributes whatever the record loop produced
before its first failure, and all contributions are concatenated in
ascending file-index order. -/
def readLoop (ds : DS) (fs : Nat → Option (List Record)) (nodes : List ℤ)
    (nlevs : Nat) (lev : LevSel) : Nat → Nat → LoopOut
  | _, 0 => emptyLoop
  | sfile, n+1 =>
    let head :=
      match fs sfile with
      | none => emptyLoop
      | some f =>
        let p := procRecs ds nodes nlevs lev ds.nsteps f
        { p with log := [sfile] }
    appendLoop head (readLoop ds fs nodes nlevs lev (sfile+1) n)

/-- The value returned by read_time_series: time and iteration series,
the sliced elevation matrix, the sliced depths, and the stacked data. -/
structure TSOut where
  t : List ℚ
  titer : List ℤ
  eta : List (List ℚ)
  dp : List ℚ
  data : Arr
deriving DecidableEq

/-- True when np.column_stack would accept the elevation rows: at least
one row, all of one length. -/
def uniformRows (l : List (List ℚ)) : Bool :=
  match l with
  | [] => false
  | r0 :: rest => rest.all (fun r => r.length == r0.length)

/-- The epilogue of read_time_series after the file loop: stack the
elevation rows (a ValueError when there are none or their lengths
disagree), slice elevation and depth by the node indices (an IndexError
for an out-of-range node index -- this is the first place a bad node
selector surfaces), and stack the data blocks. -/
def postProcess (ds : DS) (nodes : List ℤ) (lo : LoopOut) : Except PyErr TSOut :=
  if uniformRows lo.eta then
    match mapO (fun row => mapO (pyGet row) nodes) lo.eta, mapO (pyGet ds.dp) nodes with
    | some etaS, some dpS => .ok ⟨lo.t, lo.titer, etaS, dpS, .node lo.data⟩
    | _, _ => .error .indexErr
  else .error .valueErr

/-- xy.shape[1] of the query-point array (rows are uniform in numpy). -/
def xyWidth (xy : List (List ℚ)) : Nat := (xy.headD []).length

/-- The query-point resolution loop of read_time_series: for each point
call find_parent_element, append its three 0-based node indices and its
three weights; the first sys.exit aborts everything. -/
def resolvePoints (ds : DS) : List (List ℚ) → Except PyErr (List ℤ × List ℚ)
  | [] => .ok ([], [])
  | p :: ps =>
    match find_parent_element ds (p.getD 0 0) (p.getD 1 0) with
    | .error e => .error e
    | .ok (_, w, n3) =>
      match resolvePoints ds ps with
      | .error e => .error e
      | .ok (ns, ws) =>
        .ok ((n3.1 - 1) :: (n3.2.1 - 1) :: (n3.2.2 - 1) :: ns,
             w.1 :: w.2.1 :: w.2.2 :: ws)

/-- The elevation part of the interpolation epilogue: for query point i,
the weighted sum of columns 3i, 3i+1, 3i+2. -/
def interpEta (etaS : List (List ℚ)) (arco : List ℚ) (nq : Nat) : List (List ℚ) :=
  etaS.map (fun row => (List.range nq).map (fun i =>
    row.getD (3*i) 0 * arco.getD (3*i) 0 + row.getD (3*i+1) 0 * arco.getD (3*i+1) 0 +
      row.getD (3*i+2) 0 * arco.getD (3*i+2) 0))

/-- The depth part of the interpolation epilogue. -/
def interpDp (dpS : List ℚ) (arco : List ℚ) (nq : Nat) : List ℚ :=
  (List.range nq).map (fun i =>
    dpS.getD (3*i) 0 * arco.getD (3*i) 0 + dpS.getD (3*i+1) 0 * arco.getD (3*i+1) 0 +
      dpS.getD (3*i+2) 0 * arco.getD (3*i+2) 0)

/-- The data part of the interpolation epilogue: for each query point
the weighted sum of node slices 3i, 3i+1, 3i+2 of the 4-D data array,
restacked along axis 1. -/
def interpData (dataA : Arr) (arco : List ℚ) (nq : Nat) : Option Arr := do
  let ws ← mapO (fun i => do
    let a ← getAxis 1 ((3*i : Nat) : ℤ) dataA
    let b ← getAxis 1 ((3*i+1 : Nat) : ℤ) dataA
    let c ← getAxis 1 ((3*i+2 : Nat) : ℤ) dataA
    let s1 ← addArr (scaleArr (arco.getD (3*i) 0) a) (scaleArr (arco.getD (3*i+1) 0) b)
    addArr s1 (scaleArr (arco.getD (3*i+2) 0) c)) (List.range nq)
  stackAxis1 ws

/-- read_time_series.  The file system is abstracted as a map from file
index to the record list of the file named idx_fname in the data
directory (`none` for a file that cannot be opened).  The second
component of the result is the list of file indices actually opened, the
observability artifact used to reason about when I/O happens; the Python
caller sees only the first component. -/
def read_time_series (ds : DS) (fs : Nat → Option (List Record))
    (nodesArg : Option (List ℤ)) (levelsArg : Option LevSel)
    (xy : List (List ℚ)) (nfiles sfile : Nat) :
    Except PyErr TSOut × List Nat :=
  let nlevs := effNlevs ds
  let lev := effLevels ds levelsArg
  if xy.isEmpty then
    let nodes := nodesArg.getD ((List.range ds.np).map (fun k => (k : ℤ)))
    let lo := readLoop ds fs nodes nlevs lev sfile nfiles
    (postProcess ds nodes lo, lo.log)
  else if xyWidth xy ≠ 2 then (.error .badShape, [])
  else
    match resolvePoints ds xy with
    | .error e => (.error e, [])
    | .ok (nodes, arco) =>
      let lo := readLoop ds fs nodes nlevs lev sfile nfiles
      match postProcess ds nodes lo with
      | .error e => (.error e, lo.log)
      | .ok r =>
        if r.data.ndim < 4 then (.error .indexErr, lo.log)
        else
          match interpData r.data arco xy.length with
          | none => (.error .indexErr, lo.log)
          | some d4 =>
            (.ok ⟨r.t, r.titer, interpEta r.eta arco xy.length,
                  interpDp r.dp arco xy.length, d4⟩, lo.log)

/-! ## read_time_series_xy -/

/-- Squared Euclidean distance from node i to the query point. -/
def dist2 (ds : DS) (x y : ℚ) (i : Nat) : ℚ :=
  (ds.x.getD i 0 - x) * (ds.x.getD i 0 - x) + (ds.y.getD i 0 - y) * (ds.y.getD i 0 - y)

/-- Stable insertion into a distance-sorted list, breaking distance ties
by node index. -/
def insertByDist (p : ℚ × Nat) : List (ℚ × Nat) → List (ℚ × Nat)
  | [] => [p]
  | q :: qs =>
    if p.1 < q.1 ∨ (p.1 = q.1 ∧ p.2 < q.2) then p :: q :: qs
    else q :: insertByDist p qs

/-- Insertion sort of (distance, node) pairs. -/
def sortByDist : List (ℚ × Nat) → List (ℚ × Nat)
  | [] => []
  | p :: ps => insertByDist p (sortByDist ps)

/-- Modelled from the spec: the scipy cKDTree.query(xy, k=3) call.  The
tree itself is an external library, not part of this repository; section
4.3 of the specification fixes its contract as the three node indices
nearest to the query point in Euclidean distance, nearest first, ties
broken by node insertion order. -/
def nearest3 (ds : DS) (x y : ℚ) : List ℤ :=
  ((sortByDist ((List.range ds.np).map (fun i => (dist2 ds x y i, i)))).take 3).map
    (fun p => (p.2 : ℤ))

/-- The sigma_level argument of read_time_series_xy: one of the mode
strings, or a plain level index passed through unchanged. -/
inductive SigmaSel where
  | average
  | top
  | bottom
  | middle
  | level (i : ℤ)
deriving DecidableEq

/-- The level index that the top/bottom/middle branches assign to
sigma_level before the extraction call (average never reaches this). -/
def sigmaIndex (ds : DS) : SigmaSel → ℤ
  | .top => 0
  | .bottom => (ds.nlevels : ℤ) - 1
  | .middle => ((ds.nlevels / 2 : ℕ) : ℤ)
  | .level i => i
  | .average => 0

/-- eta.mean(axis=1): the mean of one elevation row. -/
def rowMean (row : List ℚ) : ℚ := row.sum / row.length

/-- read_time_series_xy: resolve the 3 nearest nodes, extract with the
defaults nfiles=3 and sfile=1, and reduce.  In average mode the code
takes the component-0 slice, means over levels then nodes, and then
applies mean(axis=1) twice more to the already 1-D series; in the other
modes it slices with the plain integer level index and then applies
data[:, :, 0, :] to the result.  The optional second component is the
time-paired elevation series of return_eta. -/
def read_time_series_xy (ds : DS) (fs : Nat → Option (List Record))
    (sigma_level : SigmaSel) (x y : ℚ) (return_eta : Bool) :
    Except PyErr (List (List ℚ) × Option (List (List ℚ))) :=
  let nodes := nearest3 ds x y
  match sigma_level with
  | .average =>
    match (read_time_series ds fs (some nodes) none [] 3 1).1 with
    | .error e => .error e
    | .ok r =>
      let etaM := r.eta.map rowMean
      if r.data.ndim < 4 then .error .indexErr
      else
        match getAxis 3 0 r.data with
        | none => .error .indexErr
        | some d1 =>
          match meanAxis 2 d1 with
          | none => .error .axisErr
          | some d2 =>
            match meanAxis 1 d2 with
            | none => .error .axisErr
            | some d3 =>
              match meanAxis 1 d3 with
              | none => .error .axisErr
              | some d4 =>
                match meanAxis 1 d4 with
                | none => .error .axisErr
                | some d5 =>
                  match colStackT r.t d5 with
                  | none => .error .valueErr
                  | some out =>
                    .ok (out, if return_eta then some (colStackQ r.t etaM) else none)
  | sel =>
    let sig := sigmaIndex ds sel
    match (read_time_series ds fs (some nodes) (some (.scalar sig)) [] 3 1).1 with
    | .error e => .error e
    | .ok r =>
      let etaM := r.eta.map rowMean
      if r.data.ndim < 4 then .error .indexErr
      else
        match getAxis 2 0 r.data with
        | none => .error .indexErr
        | some d1 =>
          match meanAxis 1 d1 with
          | none => .error .axisErr
          | some d2 =>
            match colStackT r.t d2 with
            | none => .error .valueErr
            | some out =>
              .ok (out, if return_eta then some (colStackQ r.t etaM) else none)

/-! ## Auxiliary predicates used in the theorems -/

/-- A file whose first nsteps records are all present and all process
cleanly: the file loop keeps it in full. -/
def goodFile (ds : DS) (nodes : List ℤ) (nlevs : Nat) (lev : LevSel)
    (f : List Record) : Prop :=
  ds.nsteps ≤ f.length ∧
    ∀ r ∈ f.take ds.nsteps, (processRecord ds nodes nlevs lev r).isSome

/-- The time series a present file contributes when it is fully read. -/
def fileTimes (ds : DS) (o : Option (List Record)) : List ℚ :=
  match o with
  | none => []
  | some f => (f.take ds.nsteps).map Record.t

/-- The iteration series a present fully-read file contributes. -/
def fileIters (ds : DS) (o : Option (List Record)) : List ℤ :=
  match o with
  | none => []
  | some f => (f.take ds.nsteps).map Record.it

/-- The elevation rows a present fully-read file contributes. -/
def fileEtas (ds : DS) (o : Option (List Record)) : List (List ℚ) :=
  match o with
  | none => []
  | some f => (f.take ds.nsteps).map Record.eta

/-- The data blocks a present fully-read file contributes. -/
def fileDatas (ds : DS) (nodes : List ℤ) (nlevs : Nat) (lev : LevSel)
    (o : Option (List Record)) : List Arr :=
  match o with
  | none => []
  | some f => (f.take ds.nsteps).filterMap (processRecord ds nodes nlevs lev)

/-- The log entry of one file index: opened or not. -/
def fileLog (fs : Nat → Option (List Record)) (i : Nat) : List Nat :=
  match fs i with
  | none => []
  | some _ => [i]

/-! ## Concrete fixtures used by witnesses and counterexamples -/

/-- The unit right triangle (CCW) on nodes (0,0), (1,0), (0,1) as a
one-element mesh. -/
def triDS : DS :=
  { np := 3, nsteps := 0, nlevels := 1, flag_sv := 1, flag_dm := 2,
    bot_idx := [1, 1, 1], x := [0, 1, 0], y := [0, 0, 1], dp := [0, 0, 0],
    elem := [(1, 2, 3)] }

/-- A degenerate mesh: three collinear nodes, signed area exactly 0. -/
def degDS : DS :=
  { np := 3, nsteps := 0, nlevels := 1, flag_sv := 1, flag_dm := 2,
    bot_idx := [1, 1, 1], x := [0, 1, 2], y := [0, 0, 0], dp := [0, 0, 0],
    elem := [(1, 2, 3)] }

/-- A minimal one-node 2-D dataset with one timestep per file. -/
def ds2 : DS :=
  { np := 1, nsteps := 1, nlevels := 1, flag_sv := 1, flag_dm := 2,
    bot_idx := [1], x := [0], y := [0], dp := [0], elem := [] }

/-- A well-formed record for ds2. -/
def recG : Record := ⟨5, 7, [3], [9]⟩

/-- A record for ds2 whose data block is truncated: the fread of the
data block fails and the per-file handler ends the file there. -/
def recBad : Record := ⟨6, 8, [4], []⟩

/-- Four-file sequence with index 2 missing. -/
def fsA : Nat → Option (List Record) :=
  fun i => if i = 1 ∨ i = 3 ∨ i = 4 then some [recG] else none

/-- Four-file sequence with index 3 missing, same contents elsewhere. -/
def fsB : Nat → Option (List Record) :=
  fun i => if i = 1 ∨ i = 2 ∨ i = 4 then some [recG] else none

/-- Two files, the second of which fails mid-read. -/
def fsC : Nat → Option (List Record) :=
  fun i => if i = 1 then some [recG] else if i = 2 then some [recBad] else none

/-- Two good files. -/
def fsD : Nat → Option (List Record) :=
  fun i => if i = 1 ∨ i = 2 then some [recG] else none

/-- One good file. -/
def fsE : Nat → Option (List Record) :=
  fun i => if i = 1 then some [recG] else none

/-- A 3-D dataset (flag_dm = 3) with one node whose bottom index is 2:
grid_size is 3 while np * nlevels is 4. -/
def ds3b : DS :=
  { np := 2, nsteps := 1, nlevels := 2, flag_sv := 1, flag_dm := 3,
    bot_idx := [1, 2], x := [0, 0], y := [0, 0], dp := [0, 0], elem := [] }

/-- A record carrying exactly the flag_sv * grid_size = 3 data floats
that the fread of ds3b asks for. -/
def rec3 : Record := ⟨0, 1, [0, 0], [1, 2, 3]⟩

/-- One file of ds3b records. -/
def fs3 : Nat → Option (List Record) :=
  fun i => if i = 1 then some [rec3] else none

/-- A 3-node, 2-level 3-D dataset for the average-mode reader. -/
def dsX : DS :=
  { np := 3, nsteps := 1, nlevels := 2, flag_sv := 1, flag_dm := 3,
    bot_idx := [1, 1, 1], x := [0, 1, 0], y := [0, 0, 1], dp := [1, 1, 1],
    elem := [(1, 2, 3)] }

/-- One record for dsX: 3 nodes x 2 levels x 1 component. -/
def recX : Record := ⟨0, 1, [0, 0, 0], [1, 2, 3, 4, 5, 6]⟩

/-- One dsX file. -/
def fsX : Nat → Option (List Record) :=
  fun i => if i = 1 then some [recX] else none

/-- A 3-node, 4-level 3-D dataset for the level-mode reader. -/
def dsY : DS :=
  { np := 3, nsteps := 1, nlevels := 4, flag_sv := 1, flag_dm := 3,
    bot_idx := [1, 1, 1], x := [0, 1, 0], y := [0, 0, 1], dp := [1, 1, 1],
    elem := [(1, 2, 3)] }

/-- One record for dsY: 3 nodes x 4 levels x 1 component. -/
def recY : Record := ⟨0, 1, [0, 0, 0], [1, 2, 3, 4, 5, 6, 7, 8, 9, 10, 11, 12]⟩

/-- One dsY file. -/
def fsY : Nat → Option (List Record) :=
  fun i => if i = 1 then some [recY] else none

deriving instance DecidableEq for Except

/-! ## Basic facts about the weight computation -/

theorem clamp01_nonneg (q : ℚ) : 0 ≤ clamp01 q := le_max_left 0 _

theorem clamp01_le_one (q : ℚ) : clamp01 q ≤ 1 :=
  max_le (by norm_num) (min_le_left 1 q)

/-- The first returned weight is always the unclamped raw weight out0/ar. -/
theorem arcoOf_fst (out0 out1 out2 ar : ℚ) : (arcoOf out0 out1 out2 ar).1 = out0 / ar := by
  unfold arcoOf
  dsimp only
  split <;> rfl

/-- The three returned weights always sum to exactly 1. -/
theorem arcoOf_sum (out0 out1 out2 ar : ℚ) :
    (arcoOf out0 out1 out2 ar).1 + (arcoOf out0 out1 out2 ar).2.1 +
      (arcoOf out0 out1 out2 ar).2.2 = 1 := by
  unfold arcoOf
  dsimp only
  split <;> (dsimp only) <;> ring

/-- If the unclamped first weight lies in [0,1] then all three final
weights lie in [0,1]. -/
theorem arcoOf_mem (out0 out1 out2 ar : ℚ)
    (h0 : 0 ≤ out0 / ar) (h1 : out0 / ar ≤ 1) :
    0 ≤ (arcoOf out0 out1 out2 ar).1 ∧ (arcoOf out0 out1 out2 ar).1 ≤ 1 ∧
    0 ≤ (arcoOf out0 out1 out2 ar).2.1 ∧ (arcoOf out0 out1 out2 ar).2.1 ≤ 1 ∧
    0 ≤ (arcoOf out0 out1 out2 ar).2.2 ∧ (arcoOf out0 out1 out2 ar).2.2 ≤ 1 := by
  unfold arcoOf
  dsimp only
  split
  · dsimp only
    constructor
    · exact h0
    refine ⟨h1, by linarith, by linarith, by norm_num, by norm_num⟩
  · rename_i hnot
    dsimp only
    push_neg at hnot
    have hc0 := clamp01_nonneg (out1 / ar)
    have hc1 := clamp01_le_one (out1 / ar)
    exact ⟨h0, h1, hc0, hc1, by linarith, by linarith⟩

/-- Inversion for a successful scan: the returned weights come from
`arcoOf` at the accepted element, whose area is strictly positive. -/
theorem fpeGo_ok_inv (ds : DS) (x00 y00 : ℚ) :
    ∀ (es : List (ℤ × ℤ × ℤ)) (i : Nat) (r : Nat × (ℚ × ℚ × ℚ) × (ℤ × ℤ × ℤ)),
      fpeGo ds x00 y00 i es = .ok r →
      ∃ o0 o1 o2 ar : ℚ, 0 < ar ∧ r.2.1 = arcoOf o0 o1 o2 ar
  | [], i, r => by intro h; simp [fpeGo] at h
  | e :: es, i, r => by
    intro h
    rw [fpeGo] at h
    by_cases har : (elemOuts ds e x00 y00).2.2.2 ≤ 0
    · rw [if_pos har] at h
      exact absurd h (by simp)
    · rw [if_neg har] at h
      by_cases hae : aeOf (elemOuts ds e x00 y00).1 (elemOuts ds e x00 y00).2.1
          (elemOuts ds e x00 y00).2.2.1 (elemOuts ds e x00 y00).2.2.2 ≤ tolAE
      · rw [if_pos hae] at h
        refine ⟨(elemOuts ds e x00 y00).1, (elemOuts ds e x00 y00).2.1,
          (elemOuts ds e x00 y00).2.2.1, (elemOuts ds e x00 y00).2.2.2,
          lt_of_not_le har, ?_⟩
        cases h
        rfl
      · rw [if_neg hae] at h
        exact fpeGo_ok_inv ds x00 y00 es (i+1) r h

/-- The full-triangle area computed during a query equals `arOf`: it does
not depend on the query point. -/
theorem elemOuts_ar (ds : DS) (e : ℤ × ℤ × ℤ) (x00 y00 : ℚ) :
    (elemOuts ds e x00 y00).2.2.2 = arOf ds e := rfl

/-- Scanning past a prefix of non-degenerate, non-accepting elements, the
first element with non-positive area aborts the query with the
negative-area exit, whatever its containment test would have said. -/
theorem fpeGo_deg (ds : DS) (x00 y00 : ℚ) (e : ℤ × ℤ × ℤ)
    (suf : List (ℤ × ℤ × ℤ)) (har : arOf ds e ≤ 0) :
    ∀ (pre : List (ℤ × ℤ × ℤ)) (i : Nat),
      (∀ e2 ∈ pre, 0 < arOf ds e2 ∧ ¬ (aeAt ds e2 x00 y00 ≤ tolAE)) →
      fpeGo ds x00 y00 i (pre ++ e :: suf) = .error .negArea
  | [], i, _ => by
    have har2 : (elemOuts ds e x00 y00).2.2.2 ≤ 0 := har
    simp only [List.nil_append, fpeGo]
    rw [if_pos har2]
  | p :: ps, i, hpre => by
    have hp := hpre p (List.mem_cons_self p ps)
    have hnot : ¬ ((elemOuts ds p x00 y00).2.2.2 ≤ 0) := not_le.mpr hp.1
    have hae : ¬ (aeOf (elemOuts ds p x00 y00).1 (elemOuts ds p x00 y00).2.1
        (elemOuts ds p x00 y00).2.2.1 (elemOuts ds p x00 y00).2.2.2 ≤ tolAE) := hp.2
    simp only [List.cons_append, fpeGo]
    rw [if_neg hnot, if_neg hae]
    exact fpeGo_deg ds x00 y00 e suf har ps (i+1)
      (fun e2 he2 => hpre e2 (List.mem_cons_of_mem p he2))

/-- C1 (counterexample): the claim that every accepted query returns
weights that are all in [0,1] is false.  On the unit triangle, the query
(1/2 + 1e-6, 1/2 + 1e-6) lies just outside the hypotenuse but is
accepted by the 1e-5 relative-area tolerance (ae = 4e-6); the code
clamps only arco[1] and arco[2], so the returned first weight is the
raw, unclamped -2e-6 < 0 (and the third weight exceeds 1). -/
theorem c1_counterexample :
    find_parent_element triDS (1/2 + 1/1000000) (1/2 + 1/1000000)
      = .ok (0, (-(1/500000), 1/2 + 1/1000000, 1/2 + 1/1000000), (1, 2, 3))
    ∧ ¬ (0 ≤ -((1:ℚ)/500000) ∧ -((1:ℚ)/500000) ≤ 1) := by
  constructor
  · norm_num [find_parent_element, fpeGo, elemOuts, arcoOf, aeOf, signa, coordX, coordY,
      pyGet, tolAE, clamp01, max_def, min_def, abs, triDS,
      show Int.toNat 0 = 0 from rfl, show Int.toNat 1 = 1 from rfl,
      show Int.toNat 2 = 2 from rfl]
  · norm_num

/-- C1 (amended): whenever find_parent_element accepts an element, the
returned weight triple sums to exactly 1; and whenever its first weight
(which the code never clamps) lies in [0,1] -- as it does for every
query point inside or on the accepted triangle -- all three weights lie
in [0,1].  For tolerance-accepted points slightly outside the triangle
the first weight can leave [0,1], as the counterexample shows. -/
theorem c1_weights_amended (ds : DS) (x00 y00 : ℚ) (i : Nat)
    (w : ℚ × ℚ × ℚ) (n3 : ℤ × ℤ × ℤ)
    (h : find_parent_element ds x00 y00 = .ok (i, w, n3)) :
    w.1 + w.2.1 + w.2.2 = 1 ∧
    (0 ≤ w.1 → w.1 ≤ 1 →
      0 ≤ w.1 ∧ w.1 ≤ 1 ∧ 0 ≤ w.2.1 ∧ w.2.1 ≤ 1 ∧ 0 ≤ w.2.2 ∧ w.2.2 ≤ 1) := by
  obtain ⟨o0, o1, o2, ar, har, hw⟩ := fpeGo_ok_inv ds x00 y00 ds.elem 0 (i, w, n3) h
  have hw2 : w = arcoOf o0 o1 o2 ar := hw
  subst hw2
  refine ⟨arcoOf_sum o0 o1 o2 ar, fun h0 h1 => ?_⟩
  have h0r : 0 ≤ o0 / ar := by rwa [arcoOf_fst] at h0
  have h1r : o0 / ar ≤ 1 := by rwa [arcoOf_fst] at h1
  exact arcoOf_mem o0 o1 o2 ar h0r h1r

/-- Witness for C1 at the interior point (1/4, 1/4) of the unit
triangle, whose accepted weights are (1/2, 1/4, 1/4). -/
theorem c1_weights_amended_witness :
    ((1:ℚ)/2 + 1/4 + 1/4 = 1) ∧
    (0 ≤ ((1:ℚ)/2) ∧ ((1:ℚ)/2) ≤ 1 ∧ 0 ≤ ((1:ℚ)/4) ∧ ((1:ℚ)/4) ≤ 1 ∧
      0 ≤ ((1:ℚ)/4) ∧ ((1:ℚ)/4) ≤ 1) := by
  have h := c1_weights_amended triDS (1/4) (1/4) 0 (1/2, 1/4, 1/4) (1, 2, 3)
    (by norm_num [find_parent_element, fpeGo, elemOuts, arcoOf, aeOf, signa, coordX,
      coordY, pyGet, tolAE, clamp01, max_def, min_def, abs, triDS,
      show Int.toNat 0 = 0 from rfl, show Int.toNat 1 = 1 from rfl,
      show Int.toNat 2 = 2 from rfl])
  exact ⟨h.1, h.2 (by norm_num) (by norm_num)⟩

/-- C7 (confirmed): when the element scan reaches an element whose
signed area ar is non-positive -- zero included -- having rejected (and
not aborted on) every earlier element, the query fails with the fatal
negative-area exit; no containment hypothesis is made on the degenerate
element itself, because the check precedes the containment test. -/
theorem c7_degenerate_fatal (ds : DS) (x00 y00 : ℚ)
    (pre suf : List (ℤ × ℤ × ℤ)) (e : ℤ × ℤ × ℤ)
    (hsplit : ds.elem = pre ++ e :: suf)
    (hpre : ∀ e2 ∈ pre, 0 < arOf ds e2 ∧ ¬ (aeAt ds e2 x00 y00 ≤ tolAE))
    (har : arOf ds e ≤ 0) :
    find_parent_element ds x00 y00 = .error .negArea := by
  unfold find_parent_element
  rw [hsplit]
  exact fpeGo_deg ds x00 y00 e suf har pre 0 hpre

/-- Witness for C7: the collinear mesh degDS has signed area exactly 0,
and a query (the arbitrary point (5,7)) fails with the negative-area
exit. -/
theorem c7_degenerate_fatal_witness :
    arOf degDS (1, 2, 3) = 0 ∧ find_parent_element degDS 5 7 = .error .negArea := by
  have h0 : arOf degDS (1, 2, 3) = 0 := by
    norm_num [arOf, elemOuts, signa, coordX, coordY, pyGet, degDS,
      show Int.toNat 0 = 0 from rfl, show Int.toNat 1 = 1 from rfl,
      show Int.toNat 2 = 2 from rfl]
  refine ⟨h0, c7_degenerate_fatal degDS 5 7 [] [] (1, 2, 3) rfl ?_ (le_of_eq h0)⟩
  intro e2 he2
  simp at he2

/-! ## grid_size arithmetic -/

/-- The in-place clamp is the pointwise max with 1. -/
theorem clamp_eq_max (b : ℤ) : (if b < 1 then 1 else b) = max 1 b := by
  rw [max_def]
  split_ifs <;> omega

/-- The clamped sum written as an indexed sum over the node range. -/
theorem sum_clamped (L : ℤ) : ∀ l : List ℤ,
    ((clampBot l).map (fun b => L - b + 1)).sum
      = ∑ i in Finset.range l.length, (L - max 1 (l.getD i 0) + 1)
  | [] => by simp [clampBot]
  | b :: l => by
    simp only [clampBot, List.map_cons, List.sum_cons, List.length_cons]
    rw [Finset.sum_range_succ']
    simp only [List.getD_cons_succ, List.getD_cons_zero]
    rw [clamp_eq_max]
    have ih := sum_clamped L l
    rw [clampBot] at ih
    rw [ih]
    ring

/-- Each clamped term is at most L, so the sum is at most length * L. -/
theorem sum_clamped_le (L : ℤ) : ∀ l : List ℤ,
    ((clampBot l).map (fun b => L - b + 1)).sum ≤ (l.length : ℤ) * L
  | [] => by simp [clampBot]
  | b :: l => by
    simp only [clampBot, List.map_cons, List.sum_cons, List.length_cons]
    have hterm : L - (if b < 1 then (1:ℤ) else b) + 1 ≤ L := by split <;> omega
    have ih := sum_clamped_le L l
    rw [clampBot] at ih
    push_cast
    nlinarith [hterm, ih]

/-- With one bottom index above 1 the clamped sum is strictly below
length * L. -/
theorem sum_clamped_lt (L : ℤ) : ∀ l : List ℤ, (∃ b ∈ l, 1 < b) →
    ((clampBot l).map (fun b => L - b + 1)).sum < (l.length : ℤ) * L
  | [], h => by simp at h
  | b :: l, h => by
    simp only [clampBot, List.map_cons, List.sum_cons, List.length_cons]
    rcases h with ⟨c, hc, h1c⟩
    rcases List.mem_cons.mp hc with hcb | hcl
    · subst hcb
      have hterm : L - (if c < 1 then (1:ℤ) else c) + 1 ≤ L - 1 := by split <;> omega
      have ih := sum_clamped_le L l
      rw [clampBot] at ih
      push_cast
      nlinarith [hterm, ih]
    · have hterm : L - (if b < 1 then (1:ℤ) else b) + 1 ≤ L := by split <;> omega
      have ih := sum_clamped_lt L l ⟨c, hcl, h1c⟩
      rw [clampBot] at ih
      push_cast
      nlinarith [hterm, ih]

/-- The clamped sum reaches length * L exactly when every bottom index is
at most 1 (that is, clamps to 1). -/
theorem sum_clamped_eq_iff (L : ℤ) : ∀ l : List ℤ,
    ((clampBot l).map (fun b => L - b + 1)).sum = (l.length : ℤ) * L
      ↔ ∀ b ∈ l, b ≤ 1
  | [] => by simp [clampBot]
  | b :: l => by
    simp only [clampBot, List.map_cons, List.sum_cons, List.length_cons]
    have hterm : L - (if b < 1 then (1:ℤ) else b) + 1 ≤ L := by split <;> omega
    have hle := sum_clamped_le L l
    rw [clampBot] at hle
    have ih := sum_clamped_eq_iff L l
    rw [clampBot] at ih
    constructor
    · intro h
      have hcast : ((l.length + 1 : ℕ) : ℤ) * L = (l.length : ℤ) * L + L := by push_cast; ring
      rw [hcast] at h
      have hparts : (L - (if b < 1 then (1:ℤ) else b) + 1) = L ∧
          ((l.map (fun x => if x < 1 then (1:ℤ) else x)).map (fun x => L - x + 1)).sum
            = (l.length : ℤ) * L := by
        constructor <;> nlinarith [hterm, hle]
      intro x hx
      rcases List.mem_cons.mp hx with hxb | hxl
      · subst hxb
        have := hparts.1
        split at this <;> omega
      · exact (ih.mp hparts.2) x hxl
    · intro h
      have hb := h b (List.mem_cons_self b l)
      have hrest : ((l.map (fun x => if x < 1 then (1:ℤ) else x)).map
          (fun x => L - x + 1)).sum = (l.length : ℤ) * L :=
        ih.mpr (fun x hx => h x (List.mem_cons_of_mem b hx))
      rw [hrest]
      have : (if b < 1 then (1:ℤ) else b) = 1 := by split <;> omega
      rw [this]
      push_cast
      ring

/-- C8 (confirmed): compute_step_size.  For a 3-D dataset grid_size is
the sum over all nodes of (nlevels - bottomIndex + 1) with bottom
indices first clamped up to 1; for a 2-D dataset it is np; and in both
cases the per-timestep record size is 2*4 + np*4 + grid_size*4*flag_sv
bytes. -/
theorem c8_step_size (ds : DS) (hlen : ds.bot_idx.length = ds.np) :
    (ds.flag_dm = 3 → grid_size ds = ∑ i in Finset.range ds.np,
        ((ds.nlevels : ℤ) - max 1 (ds.bot_idx.getD i 0) + 1)) ∧
    (ds.flag_dm = 2 → grid_size ds = (ds.np : ℤ)) ∧
    step_size ds = 2 * 4 + (ds.np : ℤ) * 4 + grid_size ds * 4 * (ds.flag_sv : ℤ) := by
  refine ⟨fun h3 => ?_, fun h2 => ?_, rfl⟩
  · rw [grid_size, if_pos h3, sum_clamped, hlen]
  · rw [grid_size, if_neg (by omega), if_pos h2]

/-- Witness for C8 on a 3-D dataset (ds3b) and a 2-D dataset (ds2). -/
theorem c8_step_size_witness :
    grid_size ds3b = ∑ i in Finset.range 2, ((2 : ℤ) - max 1 (ds3b.bot_idx.getD i 0) + 1)
    ∧ grid_size ds2 = 1 ∧ step_size ds2 = 2 * 4 + 1 * 4 + 1 * 4 * 1 :=
  ⟨(c8_step_size ds3b rfl).1 rfl, (c8_step_size ds2 rfl).2.1 rfl, by decide⟩

/-- C9 (confirmed): for a 2-D dataset the effective level selector used
for slicing is the one-element array [0] whatever the caller passed, and
the reshape level count is 1. -/
theorem c9_levels_forced (ds : DS) (h2 : ds.flag_dm = 2) (levelsArg : Option LevSel) :
    effLevels ds levelsArg = .arr [0] ∧ effNlevs ds = 1 := by
  simp [effLevels, effNlevs, h2]

/-- Witness for C9: a caller-supplied selector [5, 6] is overridden. -/
theorem c9_levels_forced_witness :
    effLevels ds2 (some (.arr [5, 6])) = .arr [0] ∧ effNlevs ds2 = 1 :=
  c9_levels_forced ds2 rfl (some (.arr [5, 6]))

/-! ## The reshape failure cascade (C3) -/

/-- When every data block of the fread size fails to reshape, every
record fails: the fread either comes up short or delivers exactly
readCount floats, which then do not reshape. -/
theorem processRecord_none (ds : DS) (nodes : List ℤ) (nlevs : Nat) (lev : LevSel)
    (hfail : ∀ dat : List ℚ, dat.length = readCount ds →
      reshape3 ds.np nlevs ds.flag_sv dat = none) (r : Record) :
    processRecord ds nodes nlevs lev r = none := by
  unfold processRecord
  cases h : freadN (readCount ds) r.dat with
  | none => simp [h]
  | some raw =>
    have hlenr : raw.length = readCount ds := by
      unfold freadN at h
      split at h
      · cases h
        simp [List.length_take]
        omega
      · simp at h
    simp [h, hfail raw hlenr]

/-- A record loop in which every record fails accumulates no data. -/
theorem procRecs_data_nil (ds : DS) (nodes : List ℤ) (nlevs : Nat) (lev : LevSel)
    (hnone : ∀ r, processRecord ds nodes nlevs lev r = none) :
    ∀ (n : Nat) (f : List Record), (procRecs ds nodes nlevs lev n f).data = []
  | 0, _ => rfl
  | _+1, [] => rfl
  | n+1, r :: rs => by simp [procRecs, hnone r]

/-- A file loop in which every record fails accumulates no data from any
file. -/
theorem readLoop_data_nil (ds : DS) (fs : Nat → Option (List Record)) (nodes : List ℤ)
    (nlevs : Nat) (lev : LevSel)
    (hnone : ∀ r, processRecord ds nodes nlevs lev r = none) :
    ∀ (nfiles sfile : Nat), (readLoop ds fs nodes nlevs lev sfile nfiles).data = []
  | 0, _ => rfl
  | n+1, sfile => by
    rw [readLoop]
    cases h : fs sfile with
    | none =>
      simp [h, appendLoop, emptyLoop,
        readLoop_data_nil ds fs nodes nlevs lev hnone n (sfile+1)]
    | some f =>
      simp [h, appendLoop, procRecs_data_nil ds nodes nlevs lev hnone,
        readLoop_data_nil ds fs nodes nlevs lev hnone n (sfile+1)]

/-- C3 (confirmed): for a 3-D dataset the reshape of the
flag_sv*grid_size data floats to (np, nlevels, flag_sv) is well-defined
exactly when grid_size = np*nlevels, i.e. when every clamped bottom
index is 1 (equivalently every raw bottom index is at most 1); and on
any dataset with some bottom index above 1 the reshape fails on every
record of every file, each failure is swallowed by the per-file handler,
and the file loop ends with no data at all. -/
theorem c3_reshape_precondition (ds : DS) (h3 : ds.flag_dm = 3)
    (hsv : 0 < ds.flag_sv) (hnl : 0 < ds.nlevels)
    (hlen : ds.bot_idx.length = ds.np) :
    (grid_size ds = (ds.np : ℤ) * (ds.nlevels : ℤ) ↔ ∀ b ∈ ds.bot_idx, b ≤ 1) ∧
    ((∃ b ∈ ds.bot_idx, 1 < b) →
      (∀ dat : List ℚ, dat.length = readCount ds →
        reshape3 ds.np (effNlevs ds) ds.flag_sv dat = none) ∧
      ∀ fs nodes lev sfile nfiles,
        (readLoop ds fs nodes (effNlevs ds) lev sfile nfiles).data = []) := by
  have hnlev : effNlevs ds = ds.nlevels := by rw [effNlevs, if_neg (by omega)]
  have hgs : grid_size ds
      = ((clampBot ds.bot_idx).map (fun b => (ds.nlevels : ℤ) - b + 1)).sum := by
    rw [grid_size, if_pos h3]
  have hnpcast : ((ds.np : ℤ)) = ((ds.bot_idx.length : ℕ) : ℤ) := by rw [hlen]
  constructor
  · rw [hgs, hnpcast]
    exact sum_clamped_eq_iff _ _
  · intro hb
    have hnp : 0 < ds.np := by
      rcases hb with ⟨b, hbmem, _⟩
      have := List.length_pos.mpr (List.ne_nil_of_mem hbmem)
      omega
    have hlt : grid_size ds < (ds.np : ℤ) * (ds.nlevels : ℤ) := by
      rw [hgs, hnpcast]
      exact sum_clamped_lt _ _ hb
    have hresh : ∀ dat : List ℚ, dat.length = readCount ds →
        reshape3 ds.np (effNlevs ds) ds.flag_sv dat = none := by
      intro dat hdat
      rw [reshape3, if_neg]
      rw [hdat, hnlev]
      unfold readCount
      intro hc
      rcases le_or_lt (grid_size ds) 0 with hg | hg
      · have hz : ((ds.flag_sv : ℤ) * grid_size ds).toNat = 0 := by
          have : (ds.flag_sv : ℤ) * grid_size ds ≤ 0 :=
            mul_nonpos_of_nonneg_of_nonpos (by positivity) hg
          omega
        rw [hz] at hc
        have : 0 < ds.np * (ds.nlevels * ds.flag_sv) :=
          Nat.mul_pos hnp (Nat.mul_pos hnl hsv)
        omega
      · have h1 : (ds.flag_sv : ℤ) * grid_size ds
            < (ds.flag_sv : ℤ) * ((ds.np : ℤ) * (ds.nlevels : ℤ)) :=
          mul_lt_mul_of_pos_left hlt (by exact_mod_cast hsv)
        have hge : (0 : ℤ) ≤ (ds.flag_sv : ℤ) * grid_size ds :=
          mul_nonneg (by positivity) (le_of_lt hg)
        have hcast : (((ds.flag_sv : ℤ) * grid_size ds).toNat : ℤ)
            = (ds.flag_sv : ℤ) * grid_size ds := Int.toNat_of_nonneg hge
        have hceq : (((ds.flag_sv : ℤ) * grid_size ds).toNat : ℤ)
            = ((ds.np * (ds.nlevels * ds.flag_sv) : ℕ) : ℤ) := by exact_mod_cast hc
        rw [hcast] at hceq
        have hB : ((ds.np * (ds.nlevels * ds.flag_sv) : ℕ) : ℤ)
            = (ds.np : ℤ) * ((ds.nlevels : ℤ) * (ds.flag_sv : ℤ)) := by push_cast; ring
        rw [hB] at hceq
        have hring : (ds.flag_sv : ℤ) * ((ds.np : ℤ) * (ds.nlevels : ℤ))
            = (ds.np : ℤ) * ((ds.nlevels : ℤ) * (ds.flag_sv : ℤ)) := by ring
        rw [hring] at h1
        linarith
    refine ⟨hresh, fun fs nodes lev sfile nfiles => ?_⟩
    exact readLoop_data_nil ds fs nodes (effNlevs ds) lev
      (processRecord_none ds nodes (effNlevs ds) lev hresh) nfiles sfile

/-- Witness for C3 on ds3b (bottom indices [1, 2]): grid_size is 3, not
np*nlevels = 4, and one concrete extraction accumulates no data. -/
theorem c3_reshape_precondition_witness :
    grid_size ds3b ≠ (2 : ℤ) * 2
    ∧ (readLoop ds3b fs3 [0] (effNlevs ds3b) (.arr [0, 1]) 1 1).data = [] := by
  have h := c3_reshape_precondition ds3b rfl (by decide) (by decide) rfl
  constructor
  · intro hc
    have h2 := h.1.mp hc 2 (by decide)
    omega
  · exact (h.2 ⟨2, by decide, by decide⟩).2 fs3 [0] (.arr [0, 1]) 1 1

/-! ## The file loop on fully readable files (C2) -/

/-- An in-range nonnegative index makes pyGet a total lookup. -/
theorem pyGet_valid {α : Type} (l : List α) (d : α) (n : ℤ)
    (h0 : 0 ≤ n) (h1 : n < (l.length : ℤ)) :
    pyGet l n = some (l.getD n.toNat d) := by
  have hj : ¬ (n < 0) := not_lt.mpr h0
  have hlt : n.toNat < l.length := by omega
  simp only [pyGet, hj, if_false]
  rw [List.get?_eq_getElem?, List.getElem?_eq_getElem hlt,
    List.getD_eq_getElem?_getD, List.getElem?_eq_getElem hlt]
  rfl

/-- A fancy-indexing pass whose steps all succeed is the corresponding
map. -/
theorem mapO_eq_map {α β : Type} (g : α → Option β) (g2 : α → β) :
    ∀ l : List α, (∀ a ∈ l, g a = some (g2 a)) → mapO g l = some (l.map g2)
  | [], _ => rfl
  | a :: l, h => by
    have ih := mapO_eq_map g g2 l (fun b hb => h b (List.mem_cons_of_mem a hb))
    simp [mapO, h a (List.mem_cons_self a l), ih]

/-- The record loop keeps a fully readable file in full: the first
nsteps times, iterations and elevations, and every processed data
block. -/
theorem procRecs_good (ds : DS) (nodes : List ℤ) (nlevs : Nat) (lev : LevSel) :
    ∀ (n : Nat) (f : List Record), n ≤ f.length →
      (∀ r ∈ f.take n, (processRecord ds nodes nlevs lev r).isSome) →
      procRecs ds nodes nlevs lev n f =
        ⟨(f.take n).map Record.t, (f.take n).map Record.it, (f.take n).map Record.eta,
         (f.take n).filterMap (processRecord ds nodes nlevs lev), []⟩
  | 0, f, _, _ => by simp [procRecs, emptyLoop]
  | n+1, [], h, _ => by simp at h
  | n+1, r :: rs, h, hall => by
    have hr : (processRecord ds nodes nlevs lev r).isSome :=
      hall r (by rw [List.take_succ_cons]; exact List.mem_cons_self r _)
    obtain ⟨d, hd⟩ := Option.isSome_iff_exists.mp hr
    have ih := procRecs_good ds nodes nlevs lev n rs (by simp at h; omega)
      (fun r2 hr2 => hall r2 (by rw [List.take_succ_cons]; exact List.mem_cons_of_mem r hr2))
    simp [procRecs, hd, ih, List.take_succ_cons, List.filterMap_cons]

/-- The file loop over missing-or-fully-readable files is the
concatenation, in ascending file-index order, of the per-file
contributions; missing files contribute nothing. -/
theorem readLoop_good (ds : DS) (fs : Nat → Option (List Record)) (nodes : List ℤ)
    (nlevs : Nat) (lev : LevSel) :
    ∀ (nfiles sfile : Nat),
      (∀ i ∈ List.range' sfile nfiles, ∀ f, fs i = some f →
        goodFile ds nodes nlevs lev f) →
      readLoop ds fs nodes nlevs lev sfile nfiles =
        ⟨((List.range' sfile nfiles).map (fun i => fileTimes ds (fs i))).join,
         ((List.range' sfile nfiles).map (fun i => fileIters ds (fs i))).join,
         ((List.range' sfile nfiles).map (fun i => fileEtas ds (fs i))).join,
         ((List.range' sfile nfiles).map
           (fun i => fileDatas ds nodes nlevs lev (fs i))).join,
         ((List.range' sfile nfiles).map (fun i => fileLog fs i)).join⟩
  | 0, sfile, _ => by simp [readLoop, emptyLoop]
  | n+1, sfile, hgood => by
    rw [readLoop]
    have ih := readLoop_good ds fs nodes nlevs lev n (sfile + 1)
      (fun i hi f hf => hgood i (by rw [List.range'_succ]; exact List.mem_cons_of_mem _ hi) f hf)
    rw [ih, List.range'_succ]
    simp only [List.map_cons, List.join_cons]
    cases h : fs sfile with
    | none =>
      simp [h, appendLoop, emptyLoop, fileTimes, fileIters, fileEtas, fileDatas, fileLog]
    | some f =>
      have hg := hgood sfile (by rw [List.range'_succ]; exact List.mem_cons_self _ _) f h
      simp only [h]
      rw [procRecs_good ds nodes nlevs lev ds.nsteps f hg.1 hg.2]
      simp [appendLoop, fileTimes, fileIters, fileEtas, fileDatas, fileLog, h]

/-- The epilogue on a loop result with at least one elevation row, all
rows of width np, valid node indices and a depth array of length np:
everything succeeds and the slices are plain lookups. -/
theorem postProcess_ok (ds : DS) (nodes : List ℤ) (lo : LoopOut)
    (hne : lo.eta ≠ [])
    (hrows : ∀ row ∈ lo.eta, row.length = ds.np)
    (hnodes : ∀ n ∈ nodes, 0 ≤ n ∧ n < (ds.np : ℤ))
    (hdp : ds.dp.length = ds.np) :
    postProcess ds nodes lo = .ok ⟨lo.t, lo.titer,
      lo.eta.map (fun row => nodes.map (fun n => row.getD n.toNat 0)),
      nodes.map (fun n => ds.dp.getD n.toNat 0), .node lo.data⟩ := by
  unfold postProcess
  have hu : uniformRows lo.eta = true := by
    cases hlo : lo.eta with
    | nil => exact absurd hlo hne
    | cons r0 rest =>
      simp only [uniformRows]
      rw [List.all_eq_true]
      intro r hr
      have h1 := hrows r (by rw [hlo]; exact List.mem_cons_of_mem r0 hr)
      have h0 := hrows r0 (by rw [hlo]; exact List.mem_cons_self r0 rest)
      simp [h1, h0]
  rw [if_pos hu]
  have heta : mapO (fun row => mapO (pyGet row) nodes) lo.eta
      = some (lo.eta.map (fun row => nodes.map (fun n => row.getD n.toNat 0))) := by
    apply mapO_eq_map
    intro row hrow
    apply mapO_eq_map
    intro n hn
    exact pyGet_valid row 0 n (hnodes n hn).1
      (by rw [hrows row hrow]; exact (hnodes n hn).2)
  have hdpm : mapO (pyGet ds.dp) nodes
      = some (nodes.map (fun n => ds.dp.getD n.toNat 0)) := by
    apply mapO_eq_map
    intro n hn
    exact pyGet_valid ds.dp 0 n (hnodes n hn).1 (by rw [hdp]; exact (hnodes n hn).2)
  rw [heta, hdpm]

/-- A concatenation with one nonempty member is nonempty. -/
theorem join_ne_nil_of_mem {α : Type} {L : List (List α)} {l : List α}
    (hl : l ∈ L) (h : l ≠ []) : L.join ≠ [] := by
  obtain ⟨a, ha⟩ := List.exists_mem_of_ne_nil l h
  exact List.ne_nil_of_mem (List.mem_join.mpr ⟨l, hl, ha⟩)

/-- C2 (amended): when every file of the sequence is either missing or
fully readable, the extraction raises no error; the time, iteration,
elevation and data arrays are the concatenations of the per-file
contributions over the successfully read files only, in ascending
file-index order (so one missing file out of four leaves 3*nsteps
timesteps); and the skip is silent -- the caller-visible result is
exactly this concatenation and carries nothing naming the skipped
index (the second, file-open log component exists only in the model).
A file that fails mid-read is also skipped without an error, but its
records read before the failure stay in the output, as the
counterexample shows. -/
theorem c2_skip_amended (ds : DS) (fs : Nat → Option (List Record))
    (nodes : List ℤ) (levelsArg : Option LevSel) (sfile nfiles : Nat)
    (hgood : ∀ i ∈ List.range' sfile nfiles, ∀ f, fs i = some f →
      goodFile ds nodes (effNlevs ds) (effLevels ds levelsArg) f ∧
        ∀ r ∈ f.take ds.nsteps, r.eta.length = ds.np)
    (hsome : ∃ i ∈ List.range' sfile nfiles, ∃ f, fs i = some f ∧ f.take ds.nsteps ≠ [])
    (hnodes : ∀ n ∈ nodes, 0 ≤ n ∧ n < (ds.np : ℤ))
    (hdp : ds.dp.length = ds.np) :
    read_time_series ds fs (some nodes) levelsArg [] nfiles sfile =
      (.ok ⟨((List.range' sfile nfiles).map (fun i => fileTimes ds (fs i))).join,
            ((List.range' sfile nfiles).map (fun i => fileIters ds (fs i))).join,
            (((List.range' sfile nfiles).map (fun i => fileEtas ds (fs i))).join).map
              (fun row => nodes.map (fun n => row.getD n.toNat 0)),
            nodes.map (fun n => ds.dp.getD n.toNat 0),
            .node (((List.range' sfile nfiles).map
              (fun i => fileDatas ds nodes (effNlevs ds) (effLevels ds levelsArg)
                (fs i))).join)⟩,
       ((List.range' sfile nfiles).map (fun i => fileLog fs i)).join) := by
  have hloop := readLoop_good ds fs nodes (effNlevs ds) (effLevels ds levelsArg)
    nfiles sfile (fun i hi f hf => (hgood i hi f hf).1)
  have hne : ((List.range' sfile nfiles).map (fun i => fileEtas ds (fs i))).join ≠ [] := by
    obtain ⟨i, hi, f, hf, hfne⟩ := hsome
    apply join_ne_nil_of_mem (List.mem_map_of_mem _ hi)
    rw [hf]
    simpa [fileEtas] using hfne
  have hrows : ∀ row ∈ ((List.range' sfile nfiles).map (fun i => fileEtas ds (fs i))).join,
      row.length = ds.np := by
    intro row hrow
    obtain ⟨chunk, hchunk, hrin⟩ := List.mem_join.mp hrow
    obtain ⟨i, hi, hceq⟩ := List.mem_map.mp hchunk
    cases hfsi : fs i with
    | none => rw [← hceq, hfsi] at hrin; simp [fileEtas] at hrin
    | some f =>
      rw [← hceq, hfsi] at hrin
      simp only [fileEtas] at hrin
      obtain ⟨r, hrtake, hreq⟩ := List.mem_map.mp hrin
      rw [← hreq]
      exact (hgood i hi f hfsi).2 r hrtake
  unfold read_time_series
  simp only [List.isEmpty_nil, eq_self_iff_true, if_true, Option.getD_some]
  rw [hloop]
  rw [postProcess_ok ds nodes _ hne hrows hnodes hdp]

/-- Witness for C2: the four-file sequence fsA with file 2 missing
yields exactly 3 * nsteps = 3 timesteps of concatenated results, with no
error, and the model log shows files 1, 3, 4 opened. -/
theorem c2_skip_amended_witness :
    read_time_series ds2 fsA (some [0]) none [] 4 1 =
      (.ok ⟨[5, 5, 5], [7, 7, 7], [[3], [3], [3]], [0],
        .node [toArr3 [[[9]]], toArr3 [[[9]]], toArr3 [[[9]]]]⟩, [1, 3, 4]) := by
  rw [c2_skip_amended ds2 fsA [0] none 1 4
    (by
      intro i hi f hf
      fin_cases hi
      · simp only [fsA] at hf
        norm_num at hf
        exact hf ▸ ⟨⟨by decide, by decide⟩, by decide⟩
      · simp [fsA] at hf
      · simp only [fsA] at hf
        norm_num at hf
        exact hf ▸ ⟨⟨by decide, by decide⟩, by decide⟩
      · simp only [fsA] at hf
        norm_num at hf
        exact hf ▸ ⟨⟨by decide, by decide⟩, by decide⟩)
    ⟨1, by decide, [recG], by decide, by decide⟩
    (by intro n hn; fin_cases hn; exact ⟨by decide, by decide⟩)
    rfl]
  decide

/-- C2 (counterexample): the claim is false in two parts.  First, the
skipped index is not reported observably: the four-file sequences with
file 2 missing and with file 3 missing produce identical caller-visible
results, so no observation of the result can tell which index was
skipped.  Second, for a file that can be opened but fails mid-read
(fsC, file 2 truncated inside its record), the output is not the
concatenation over successfully read files only: the time, iteration
and elevation arrays keep the partial record of the failed file (two
entries) while the data array has only the one entry of file 1. -/
theorem c2_counterexample :
    (read_time_series ds2 fsA none none [] 4 1).1
      = (read_time_series ds2 fsB none none [] 4 1).1
    ∧ (read_time_series ds2 fsC none none [] 2 1).1
      = .ok ⟨[5, 6], [7, 8], [[3], [4]], [0], .node [toArr3 [[[9]]]]⟩ :=
  ⟨by decide, by decide⟩

/-- C5 (amended): a query point that no element contains is fatal for
the whole extraction call, not only for that point: the sys.exit of
find_parent_element propagates out of the resolution loop, the call
returns that error, and no file is even opened (empty log), so no other
query point of the batch is resolved or extracted. -/
theorem c5_batch_fatal_amended (ds : DS) (fs : Nat → Option (List Record))
    (nodesArg : Option (List ℤ)) (levelsArg : Option LevSel)
    (xy : List (List ℚ)) (nfiles sfile : Nat) (e : PyErr)
    (hne : xy ≠ []) (hw : xyWidth xy = 2)
    (hres : resolvePoints ds xy = .error e) :
    read_time_series ds fs nodesArg levelsArg xy nfiles sfile = (.error e, []) := by
  unfold read_time_series
  rw [if_neg (by simp [List.isEmpty_iff, hne])]
  rw [if_neg (by simp [hw])]
  rw [hres]

/-- Witness for C5: a batch of the interior point (1/8, 1/8) and the
exterior point (20, 20) on the unit triangle aborts whole with the
no-parent exit before any I/O. -/
theorem c5_batch_fatal_amended_witness :
    read_time_series triDS (fun _ => none) none none [[1/8, 1/8], [20, 20]] 1 1
      = (.error .noParent, []) := by
  apply c5_batch_fatal_amended
  · simp
  · rfl
  · norm_num [resolvePoints, find_parent_element, fpeGo, elemOuts, arcoOf, aeOf, signa,
      coordX, coordY, pyGet, tolAE, clamp01, max_def, min_def, abs, triDS,
      show Int.toNat 0 = 0 from rfl, show Int.toNat 1 = 1 from rfl,
      show Int.toNat 2 = 2 from rfl]

/-- C5 (counterexample): the claim that a PointNotFoundError does not
abort the other query points of a batch is false.  The point (1/4, 1/4)
resolves on its own, but batching it with the exterior point (10, 10)
makes the whole read_time_series call exit with the no-parent error:
no extraction completes for any point of the batch. -/
theorem c5_counterexample :
    find_parent_element triDS (1/4) (1/4) = .ok (0, (1/2, 1/4, 1/4), (1, 2, 3))
    ∧ read_time_series triDS (fun _ => none) none none [[1/4, 1/4], [10, 10]] 1 1
        = (.error .noParent, []) := by
  constructor
  · norm_num [find_parent_element, fpeGo, elemOuts, arcoOf, aeOf, signa, coordX, coordY,
      pyGet, tolAE, clamp01, max_def, min_def, abs, triDS,
      show Int.toNat 0 = 0 from rfl, show Int.toNat 1 = 1 from rfl,
      show Int.toNat 2 = 2 from rfl]
  · norm_num [read_time_series, xyWidth, resolvePoints, find_parent_element, fpeGo,
      elemOuts, arcoOf, aeOf, signa, coordX, coordY, pyGet, tolAE, clamp01, max_def,
      min_def, abs, triDS,
      show Int.toNat 0 = 0 from rfl, show Int.toNat 1 = 1 from rfl,
      show Int.toNat 2 = 2 from rfl]

/-- C6 (amended): a coordinate array whose second dimension is not 2
does abort the call (with the shape sys.exit) before any file is
opened, for every dataset and file system; but an out-of-range node
selector is not validated before I/O: the demonstration on ds2 shows a
file being opened and read (log [1]) with the per-record slice failure
swallowed, and the bad selector surfacing only as an IndexError when
the elevation matrix is sliced after the file loop. -/
theorem c6_selector_amended :
    (∀ (ds : DS) (fs : Nat → Option (List Record)) (nodesArg : Option (List ℤ))
       (levelsArg : Option LevSel) (xy : List (List ℚ)) (nfiles sfile : Nat),
       xy ≠ [] → xyWidth xy ≠ 2 →
       read_time_series ds fs nodesArg levelsArg xy nfiles sfile = (.error .badShape, []))
    ∧ read_time_series ds2 fsE (some [5]) none [] 1 1 = (.error .indexErr, [1]) := by
  constructor
  · intro ds fs nodesArg levelsArg xy nfiles sfile hne hw
    unfold read_time_series
    rw [if_neg (by simp [List.isEmpty_iff, hne])]
    rw [if_pos hw]
  · decide

/-- Witness for C6: a 3-wide coordinate array fails with the shape exit
and an empty file-open log. -/
theorem c6_selector_amended_witness :
    read_time_series ds2 (fun _ => none) none none [[1, 2, 3]] 1 1
      = (.error .badShape, []) :=
  c6_selector_amended.1 ds2 (fun _ => none) none none [[1, 2, 3]] 1 1
    (by simp) (by decide)

/-- C6 (counterexample): the claim that an out-of-range node selector
fails with a selector error before any I/O is false.  With the node
selector [7] on the one-node dataset ds2, both files of the sequence
are opened and fully read (log [1, 2]); the per-record slice failures
are silently swallowed, and the call then fails with a plain numpy
IndexError -- after all the I/O, and not as any pre-I/O validation. -/
theorem c6_counterexample :
    read_time_series ds2 fsD (some [7]) none [] 2 1 = (.error .indexErr, [1, 2]) := by
  decide

/-- C4 (code bug): the average reduction mode crashes on every call.
The first reduction line already collapses the component-0 slice over
levels then nodes, leaving a 1-D per-timestep series; the following
line then applies mean(axis=1) to that 1-D array, which is a numpy
AxisError.  Here the crash is evaluated on the concrete 3-node, 2-level
3-D dataset dsX at the query point (0, 0): the call returns the
AxisError instead of one scalar per timestep. -/
theorem c4_average_crash :
    read_time_series_xy dsX fsX .average 0 0 false = .error .axisErr := by
  have hn : nearest3 dsX 0 0 = [0, 1, 2] := by
    norm_num [nearest3, sortByDist, insertByDist, dist2, dsX]
  unfold read_time_series_xy
  rw [hn]
  decide

/-- C10 (code bug): the top/bottom/middle mapping itself matches the
claim (level 0, nlevels-1 and nlevels//2 respectively, here 0, 3 and 2
for nlevels = 4), but passing that plain integer as the level selector
drops the level axis during slicing, so the extracted data array is
3-D; the reduction data[:, :, 0, :] then needs four axes and raises a
numpy IndexError.  The crash is evaluated on the concrete 3-node,
4-level 3-D dataset dsY in middle mode at the query point (0, 0): the
call errors instead of returning the level nlevels//2 series. -/
theorem c10_sigma_crash :
    (sigmaIndex dsY .top = 0 ∧ sigmaIndex dsY .bottom = 3 ∧ sigmaIndex dsY .middle = 2)
    ∧ read_time_series_xy dsY fsY .middle 0 0 false = .error .indexErr := by
  refine ⟨⟨by decide, by decide, by decide⟩, ?_⟩
  have hn : nearest3 dsY 0 0 = [0, 1, 2] := by
    norm_num [nearest3, sortByDist, insertByDist, dist2, dsY]
  unfold read_time_series_xy
  rw [hn]
  decide
